import Mathlib

/-!
Verification of the contest temporal-phase state machine and the token
budget model of the `cms` repository (`src/cms/db/contest.py`).

Timestamps and durations are modelled as integers (e.g. seconds since an
epoch): the source compares `datetime` and `timedelta` values only with
`<`, `<=` and subtracts them, so any linearly ordered additive model is
faithful.
-/

namespace CMS

/-- Token modes, from the `token_mode` enum column of `Contest`
(`disabled`, `finite`, `infinite`). -/
inductive TokenMode where
  | disabled
  | finite
  | infinite
deriving DecidableEq, Repr

/-- The fields of `Contest` (src/cms/db/contest.py) that the phase and
token logic reads.  `Option Int` models nullable integer columns;
intervals are integer numbers of seconds. -/
structure Contest where
  token_mode : TokenMode
  token_max_number : Option Int
  token_min_interval : Int
  token_gen_initial : Int
  token_gen_number : Int
  token_gen_interval : Int
  token_gen_max : Option Int
  start : Int
  stop : Int
  analysis_enabled : Bool
  analysis_start : Int
  analysis_stop : Int
deriving DecidableEq, Repr

/-- Translation, statement by statement, of `Contest.phase` from
src/cms/db/contest.py lines 314-341:

    if timestamp < self.start: return -1
    if timestamp <= self.stop: return 0
    if self.analysis_enabled:
        if timestamp < self.analysis_start: return 1
        elif timestamp <= self.analysis_stop: return 2
    return 3
-/
def Contest.phase (c : Contest) (timestamp : Int) : Int :=
  if timestamp < c.start then -1
  else if timestamp ≤ c.stop then 0
  else if c.analysis_enabled then
    if timestamp < c.analysis_start then 1
    else if timestamp ≤ c.analysis_stop then 2
    else 3
  else 3

/-- The five phase values in the integer encoding used by the source. -/
def BeforeContest : Int := -1
/-- Phase value 0: the contest is active. -/
def ContestActive : Int := 0
/-- Phase value 1: contest ended, analysis not yet started. -/
def AfterContestBeforeAnalysis : Int := 1
/-- Phase value 2: analysis mode active. -/
def AnalysisActive : Int := 2
/-- Phase value 3: analysis disabled or ended. -/
def AfterAnalysisOrDisabled : Int := 3

/-- The six-step decision procedure exactly as the spec (section 4.1)
words it, to be compared with `Contest.phase` from the source. -/
def phaseSpecSteps (c : Contest) (timestamp : Int) : Int :=
  if timestamp < c.start then BeforeContest
  else if timestamp ≤ c.stop then ContestActive
  else if c.analysis_enabled = false then AfterAnalysisOrDisabled
  else if timestamp < c.analysis_start then AfterContestBeforeAnalysis
  else if timestamp ≤ c.analysis_stop then AnalysisActive
  else AfterAnalysisOrDisabled

/-- The ordering invariant on a contest schedule
(`start ≤ stop ≤ analysis_start ≤ analysis_stop`), declared in the source
as the first three `CheckConstraint`s of `Contest.__table_args__`. -/
def Contest.scheduleOrdered (c : Contest) : Prop :=
  c.start ≤ c.stop ∧ c.stop ≤ c.analysis_start ∧
    c.analysis_start ≤ c.analysis_stop

instance (c : Contest) : Decidable c.scheduleOrdered := by
  unfold Contest.scheduleOrdered; infer_instance

/-- A sample schedule used by witnesses: a one-hour contest followed by a
one-hour analysis window. -/
def sampleContest : Contest :=
  { token_mode := TokenMode.finite
    token_max_number := none
    token_min_interval := 0
    token_gen_initial := 2
    token_gen_number := 2
    token_gen_interval := 1800
    token_gen_max := none
    start := 0
    stop := 3600
    analysis_enabled := true
    analysis_start := 7200
    analysis_stop := 10800 }

/-- A token count: a finite integer or `Infinite`. -/
inductive TokenCount where
  | fin (n : Int)
  | inf
deriving DecidableEq, Repr

/-- The reason field of a `canSpendNow` verdict. -/
inductive SpendReason where
  | disabledMode
  | noTokensAvailable
  | tooSoonAfterLastSpend
  | noReason
deriving DecidableEq, Repr

/-- Modelled from the spec: the repository's token-availability
computation (`availableTokens`, spec section 4.2) is not under src/ —
only the policy columns `token_mode`, `token_gen_initial`,
`token_gen_number`, `token_gen_interval`, `token_gen_max`,
`token_max_number` (src/cms/db/contest.py lines 164-209) are.  Following
the spec's words: `Disabled` gives 0, `Infinite` gives `Infinite`, and
`Finite` counts elapsed whole generation intervals `k` (clamped to be
nonnegative), accumulates `genInitial + k * genNumber` grants capped at
`genMax` when set, subtracts the number of recorded spends, caps by the
remaining lifetime budget `maxTotalNumber - S` when `maxTotalNumber` is
set, and clamps at 0. -/
def availableTokens (c : Contest) (history : List Int)
    (contestStart now : Int) : TokenCount :=
  match c.token_mode with
  | TokenMode.disabled => TokenCount.fin 0
  | TokenMode.infinite => TokenCount.inf
  | TokenMode.finite =>
    let k := max 0 (Int.fdiv (now - contestStart) c.token_gen_interval)
    let grants := c.token_gen_initial + k * c.token_gen_number
    let capped :=
      match c.token_gen_max with
      | some m => min grants m
      | none => grants
    let spent : Int := history.length
    let avail := max 0 (capped - spent)
    match c.token_max_number with
    | some m => TokenCount.fin (max 0 (min avail (m - spent)))
    | none => TokenCount.fin avail

/-- Modelled from the spec: the repository's spend-permission check
(`canSpendNow`, spec section 4.2) is not under src/ — only the policy
columns, including `token_min_interval` (src/cms/db/contest.py lines
181-185), are.  Following the spec's four steps: `Disabled` mode is
refused with reason `Disabled`; zero available tokens are refused with
reason `NoTokensAvailable`; a nonempty history whose last spend is less
than `minInterval` ago is refused with reason `TooSoonAfterLastSpend`;
otherwise the spend is allowed. -/
def canSpendNow (c : Contest) (history : List Int)
    (contestStart now : Int) : Bool × SpendReason :=
  if c.token_mode = TokenMode.disabled then
    (false, SpendReason.disabledMode)
  else if availableTokens c history contestStart now = TokenCount.fin 0 then
    (false, SpendReason.noTokensAvailable)
  else
    match history.getLast? with
    | some lastSpend =>
      if now - lastSpend < c.token_min_interval then
        (false, SpendReason.tooSoonAfterLastSpend)
      else (true, SpendReason.noReason)
    | none => (true, SpendReason.noReason)

/-- The configuration-acceptance predicate, translated from the
`CheckConstraint` declarations of src/cms/db/contest.py restricted to the
columns modelled here: the three schedule-ordering constraints and
`token_gen_initial <= token_gen_max` from `__table_args__` (lines 51-56),
and the per-column constraints `token_max_number > 0` (line 175),
`token_min_interval >= '0 seconds'` (line 183),
`token_gen_initial >= 0` (line 193), `token_gen_number >= 0` (line 198),
`token_gen_interval > '0 seconds'` (line 203) and `token_gen_max > 0`
(line 208).  A SQL check constraint on a nullable column is satisfied
when the column is NULL, hence the `Option.all`. -/
def Contest.validConfig (c : Contest) : Bool :=
  decide (c.start ≤ c.stop) &&
  decide (c.stop ≤ c.analysis_start) &&
  decide (c.analysis_start ≤ c.analysis_stop) &&
  (c.token_gen_max.all fun m => decide (c.token_gen_initial ≤ m)) &&
  (c.token_max_number.all fun m => decide (0 < m)) &&
  decide (0 ≤ c.token_min_interval) &&
  decide (0 ≤ c.token_gen_initial) &&
  decide (0 ≤ c.token_gen_number) &&
  decide (0 < c.token_gen_interval) &&
  (c.token_gen_max.all fun m => decide (0 < m))

/-- Variant of `Contest.phase` with the evaluation state passed explicitly: each
attribute read happens on the state `c`, and the method's result is
paired with the state left behind.  The body mirrors
src/cms/db/contest.py lines 332-341, which contain no assignment. -/
def Contest.phaseRun (c : Contest) (timestamp : Int) : Int × Contest :=
  if timestamp < c.start then (-1, c)
  else if timestamp ≤ c.stop then (0, c)
  else if c.analysis_enabled then
    if timestamp < c.analysis_start then (1, c)
    else if timestamp ≤ c.analysis_stop then (2, c)
    else (3, c)
  else (3, c)

/-- The timestamp range that the spec assigns to each phase value, read
off section 4.1's decision order under the ordering invariant: used to
state that the five ranges partition the timeline. -/
def inPhaseRange (c : Contest) (p t : Int) : Prop :=
  (p = BeforeContest ∧ t < c.start) ∨
  (p = ContestActive ∧ c.start ≤ t ∧ t ≤ c.stop) ∨
  (p = AfterContestBeforeAnalysis ∧ c.analysis_enabled = true ∧
    c.stop < t ∧ t < c.analysis_start) ∨
  (p = AnalysisActive ∧ c.analysis_enabled = true ∧ c.stop < t ∧
    c.analysis_start ≤ t ∧ t ≤ c.analysis_stop) ∨
  (p = AfterAnalysisOrDisabled ∧ c.stop < t ∧
    (c.analysis_enabled = false ∨ c.analysis_stop < t))

instance (c : Contest) (p t : Int) : Decidable (inPhaseRange c p t) := by
  unfold inPhaseRange; infer_instance

/-- A contest whose token mode is disabled, for witnesses. -/
def disabledContest : Contest :=
  { sampleContest with token_mode := TokenMode.disabled }

/-- A contest violating `start <= stop`, for witnesses. -/
def invalidContest : Contest :=
  { sampleContest with
      start := 10
      stop := 5
      analysis_start := 5
      analysis_stop := 5 }

/-- A contest whose `token_gen_max` cap is zero, for witnesses. -/
def zeroCapContest : Contest :=
  { sampleContest with token_gen_max := some 0 }

theorem validConfig_iff (c : Contest) : c.validConfig = true ↔
    (c.start ≤ c.stop ∧ c.stop ≤ c.analysis_start ∧
     c.analysis_start ≤ c.analysis_stop ∧
     (∀ m, c.token_gen_max = some m → c.token_gen_initial ≤ m) ∧
     (∀ m, c.token_max_number = some m → 0 < m) ∧
     0 ≤ c.token_min_interval ∧ 0 ≤ c.token_gen_initial ∧
     0 ≤ c.token_gen_number ∧ 0 < c.token_gen_interval ∧
     (∀ m, c.token_gen_max = some m → 0 < m)) := by
  unfold Contest.validConfig
  cases hg : c.token_gen_max <;> cases hm : c.token_max_number <;>
    simp [Option.all] <;> tauto

/-- C1: under the ordering invariant, the source's `phase` follows the
spec's six-step decision order exactly, with closing boundaries
inclusive; in particular the phase at exactly `start` and at exactly
`stop` is `ContestActive`. -/
theorem phase_follows_spec_steps (c : Contest) (h : c.scheduleOrdered) :
    (∀ t, c.phase t = phaseSpecSteps c t) ∧
    c.phase c.start = ContestActive ∧ c.phase c.stop = ContestActive := by
  obtain ⟨h1, h2, h3⟩ := h
  refine ⟨fun t => ?_, ?_, ?_⟩ <;>
  · simp only [Contest.phase, phaseSpecSteps, BeforeContest, ContestActive,
      AfterContestBeforeAnalysis, AnalysisActive, AfterAnalysisOrDisabled]
    cases hb : c.analysis_enabled <;> simp <;> (try split_ifs) <;> omega

theorem phase_follows_spec_steps_witness :
    sampleContest.scheduleOrdered ∧
    sampleContest.phase sampleContest.start = ContestActive ∧
    sampleContest.phase sampleContest.stop = ContestActive :=
  ⟨by decide, (phase_follows_spec_steps sampleContest (by decide)).2⟩

/-- C2: under the ordering invariant, `phase` returns one of the five
phase values, its value at each timestamp is characterised by the five
explicit timestamp ranges, and those ranges partition the timeline:
every timestamp lies in exactly one of them. -/
theorem phase_ranges_partition (c : Contest) (h : c.scheduleOrdered)
    (t : Int) :
    (c.phase t = BeforeContest ∨ c.phase t = ContestActive ∨
     c.phase t = AfterContestBeforeAnalysis ∨ c.phase t = AnalysisActive ∨
     c.phase t = AfterAnalysisOrDisabled) ∧
    (∀ p, c.phase t = p ↔ inPhaseRange c p t) ∧
    (∃! p, inPhaseRange c p t) := by
  obtain ⟨h1, h2, h3⟩ := h
  have key : ∀ p, c.phase t = p ↔ inPhaseRange c p t := by
    intro p
    unfold Contest.phase inPhaseRange BeforeContest ContestActive
      AfterContestBeforeAnalysis AnalysisActive AfterAnalysisOrDisabled
    cases hb : c.analysis_enabled <;> simp <;> split_ifs <;> omega
  refine ⟨?_, key, c.phase t, (key _).mp rfl,
    fun p hp => ((key p).mpr hp).symm⟩
  unfold Contest.phase BeforeContest ContestActive
    AfterContestBeforeAnalysis AnalysisActive AfterAnalysisOrDisabled
  split_ifs <;> simp

theorem phase_ranges_partition_witness :
    sampleContest.scheduleOrdered ∧
    (sampleContest.phase 5000 = AfterContestBeforeAnalysis ↔
      inPhaseRange sampleContest AfterContestBeforeAnalysis 5000) :=
  ⟨by decide, (phase_ranges_partition sampleContest (by decide) 5000).2.1
    AfterContestBeforeAnalysis⟩

/-- C3: for a fixed schedule satisfying the ordering invariant, the
phase value (in the source's integer encoding, which orders the five
phases as -1 < 0 < 1 < 2 < 3) is monotone in the timestamp. -/
theorem phase_monotone (c : Contest) (h : c.scheduleOrdered)
    (t1 t2 : Int) (ht : t1 ≤ t2) : c.phase t1 ≤ c.phase t2 := by
  obtain ⟨h1, h2, h3⟩ := h
  unfold Contest.phase
  cases hb : c.analysis_enabled <;> simp <;> split_ifs <;> omega

theorem phase_monotone_witness :
    sampleContest.scheduleOrdered ∧ (100 : Int) ≤ 8000 ∧
    sampleContest.phase 100 ≤ sampleContest.phase 8000 :=
  ⟨by decide, by decide,
    phase_monotone sampleContest (by decide) 100 8000 (by decide)⟩

/-- C4: when `analysis_enabled` is false, `phase` never returns
`AfterContestBeforeAnalysis` (1) or `AnalysisActive` (2), for every
schedule and timestamp. -/
theorem phase_disabled_analysis (c : Contest)
    (h : c.analysis_enabled = false) (t : Int) :
    c.phase t ≠ AfterContestBeforeAnalysis ∧ c.phase t ≠ AnalysisActive := by
  have hph : c.phase t =
      if t < c.start then -1 else if t ≤ c.stop then 0 else 3 := by
    unfold Contest.phase
    rw [h]
    split_ifs <;> simp_all
  rw [hph]
  unfold AfterContestBeforeAnalysis AnalysisActive
  split_ifs <;> omega

theorem phase_disabled_analysis_witness :
    ({ sampleContest with analysis_enabled := false } :
        Contest).analysis_enabled = false ∧
    ({ sampleContest with analysis_enabled := false } :
        Contest).phase 5000 ≠ AfterContestBeforeAnalysis :=
  ⟨rfl, (phase_disabled_analysis
    { sampleContest with analysis_enabled := false } rfl 5000).1⟩

/-- C8: `phase` is deterministic and side-effect free: the
state-explicit evaluation of the method body returns exactly the value
of the pure function `phase` of its arguments and leaves the schedule
state unchanged, for every schedule and timestamp. -/
theorem phaseRun_pure (c : Contest) (t : Int) :
    c.phaseRun t = (c.phase t, c) := by
  unfold Contest.phaseRun Contest.phase
  split_ifs <;> rfl

theorem phase_value_cases (c : Contest) (t : Int) :
    c.phase t = -1 ∨ c.phase t = 0 ∨ c.phase t = 1 ∨ c.phase t = 2 ∨
    c.phase t = 3 := by
  unfold Contest.phase
  split_ifs <;> simp

/-- C9: `phase` is total over all inputs: even for schedules violating
the ordering invariant it returns one of the five encoded values
-1, 0, 1, 2, 3, with no further case and no error path. -/
theorem phase_total (c : Contest) (t : Int) :
    c.phase t = -1 ∨ c.phase t = 0 ∨ c.phase t = 1 ∨ c.phase t = 2 ∨
    c.phase t = 3 :=
  phase_value_cases c t

/-- C5: for the finite policy with genInitial 2, genNumber 2,
genInterval 30 minutes and no caps, `availableTokens` grants
genInitial plus genNumber per elapsed whole interval (clamped
nonnegative) minus the spend count; concretely it is 2 at contest start
and 4 at start plus 31 minutes with empty history, and one recorded
spend lowers each of those by exactly 1. -/
theorem finite_tokens_generation :
    (∀ (hist : List Int) (now : Int),
      availableTokens sampleContest hist 0 now =
        TokenCount.fin
          (max 0 (2 + max 0 (Int.fdiv now 1800) * 2 - hist.length))) ∧
    availableTokens sampleContest [] 0 0 = TokenCount.fin 2 ∧
    availableTokens sampleContest [] 0 1860 = TokenCount.fin 4 ∧
    availableTokens sampleContest [0] 0 0 = TokenCount.fin 1 ∧
    availableTokens sampleContest [0] 0 1860 = TokenCount.fin 3 := by
  refine ⟨fun hist now => ?_, by decide, by decide, by decide, by decide⟩
  simp [availableTokens, sampleContest]

/-- C6: with token mode disabled, `availableTokens` is 0 and
`canSpendNow` refuses with reason `Disabled`, for every history,
contest start and query time. -/
theorem disabled_token_queries (c : Contest)
    (h : c.token_mode = TokenMode.disabled) (hist : List Int)
    (contestStart now : Int) :
    availableTokens c hist contestStart now = TokenCount.fin 0 ∧
    canSpendNow c hist contestStart now =
      (false, SpendReason.disabledMode) := by
  unfold availableTokens canSpendNow
  rw [h]
  simp

theorem disabled_token_queries_witness :
    disabledContest.token_mode = TokenMode.disabled ∧
    canSpendNow disabledContest [] 0 0 = (false, SpendReason.disabledMode) :=
  ⟨rfl, (disabled_token_queries disabledContest rfl [] 0 0).2⟩

/-- C7: each listed invariant violation (stop before start, non-positive
generation interval, negative caps, negative minimum interval) makes the
configuration-acceptance check fail, and under an accepted configuration
every query is total: `phase` returns one of the five values,
`availableTokens` returns a nonnegative finite count or `Infinite`, and
`canSpendNow` returns either an allowance with no reason or a refusal
with a reason. -/
theorem config_rejected_queries_total :
    (∀ c : Contest, c.stop < c.start → c.validConfig = false) ∧
    (∀ c : Contest, c.token_gen_interval ≤ 0 → c.validConfig = false) ∧
    (∀ (c : Contest) (m : Int), c.token_gen_max = some m → m < 0 →
      c.validConfig = false) ∧
    (∀ (c : Contest) (m : Int), c.token_max_number = some m → m < 0 →
      c.validConfig = false) ∧
    (∀ c : Contest, c.token_min_interval < 0 → c.validConfig = false) ∧
    (∀ (c : Contest) (t : Int), c.validConfig = true →
      c.phase t = -1 ∨ c.phase t = 0 ∨ c.phase t = 1 ∨ c.phase t = 2 ∨
      c.phase t = 3) ∧
    (∀ (c : Contest) (hist : List Int) (s now : Int),
      c.validConfig = true →
      (∃ n, 0 ≤ n ∧ availableTokens c hist s now = TokenCount.fin n) ∨
      availableTokens c hist s now = TokenCount.inf) ∧
    (∀ (c : Contest) (hist : List Int) (s now : Int),
      c.validConfig = true →
      canSpendNow c hist s now = (true, SpendReason.noReason) ∨
      ((canSpendNow c hist s now).1 = false ∧
        (canSpendNow c hist s now).2 ≠ SpendReason.noReason)) := by
  refine ⟨?_, ?_, ?_, ?_, ?_, ?_, ?_, ?_⟩
  · intro c h
    cases hv : c.validConfig
    · rfl
    · rw [validConfig_iff] at hv
      obtain ⟨a1, -⟩ := hv
      omega
  · intro c h
    cases hv : c.validConfig
    · rfl
    · rw [validConfig_iff] at hv
      obtain ⟨-, -, -, -, -, -, -, -, a9, -⟩ := hv
      omega
  · intro c m hm h
    cases hv : c.validConfig
    · rfl
    · rw [validConfig_iff] at hv
      obtain ⟨-, -, -, -, -, -, -, -, -, a10⟩ := hv
      have := a10 m hm
      omega
  · intro c m hm h
    cases hv : c.validConfig
    · rfl
    · rw [validConfig_iff] at hv
      obtain ⟨-, -, -, -, a5, -⟩ := hv
      have := a5 m hm
      omega
  · intro c h
    cases hv : c.validConfig
    · rfl
    · rw [validConfig_iff] at hv
      obtain ⟨-, -, -, -, -, a6, -⟩ := hv
      omega
  · intro c t _
    exact phase_value_cases c t
  · intro c hist s now _
    unfold availableTokens
    cases hmode : c.token_mode
    · exact Or.inl ⟨0, le_refl 0, rfl⟩
    · cases hm : c.token_max_number
      · exact Or.inl ⟨_, le_max_left 0 _, rfl⟩
      · exact Or.inl ⟨_, le_max_left 0 _, rfl⟩
    · exact Or.inr rfl
  · intro c hist s now _
    unfold canSpendNow
    split_ifs with h1 h2
    · exact Or.inr ⟨rfl, by decide⟩
    · exact Or.inr ⟨rfl, by decide⟩
    · cases hl : hist.getLast?
      · exact Or.inl rfl
      · dsimp only
        split_ifs with h3
        · exact Or.inr ⟨rfl, by decide⟩
        · exact Or.inl rfl

theorem config_rejected_queries_total_witness :
    invalidContest.validConfig = false ∧
    (canSpendNow sampleContest [] 0 0 = (true, SpendReason.noReason) ∨
      ((canSpendNow sampleContest [] 0 0).1 = false ∧
        (canSpendNow sampleContest [] 0 0).2 ≠ SpendReason.noReason)) :=
  ⟨config_rejected_queries_total.1 invalidContest (by decide),
   config_rejected_queries_total.2.2.2.2.2.2.2 sampleContest [] 0 0
     (by decide)⟩

/-- C10: an accepted configuration satisfies
token_gen_initial ≤ token_gen_max and strict positivity of both caps
when they are set; in particular a cap equal to zero is rejected, not
only negative ones. -/
theorem cap_constraints_strict :
    (∀ c : Contest, c.validConfig = true →
      (∀ m, c.token_gen_max = some m →
        c.token_gen_initial ≤ m ∧ 0 < m) ∧
      (∀ m, c.token_max_number = some m → 0 < m)) ∧
    (∀ c : Contest, c.token_gen_max = some 0 → c.validConfig = false) ∧
    (∀ c : Contest, c.token_max_number = some 0 →
      c.validConfig = false) := by
  refine ⟨?_, ?_, ?_⟩
  · intro c hv
    rw [validConfig_iff] at hv
    obtain ⟨-, -, -, a4, a5, -, -, -, -, a10⟩ := hv
    exact ⟨fun m hm => ⟨a4 m hm, a10 m hm⟩, a5⟩
  · intro c hm
    cases hv : c.validConfig
    · rfl
    · rw [validConfig_iff] at hv
      obtain ⟨-, -, -, -, -, -, -, -, -, a10⟩ := hv
      have := a10 0 hm
      omega
  · intro c hm
    cases hv : c.validConfig
    · rfl
    · rw [validConfig_iff] at hv
      obtain ⟨-, -, -, -, a5, -⟩ := hv
      have := a5 0 hm
      omega

theorem cap_constraints_strict_witness :
    zeroCapContest.token_gen_max = some 0 ∧
    zeroCapContest.validConfig = false :=
  ⟨rfl, cap_constraints_strict.2.1 zeroCapContest rfl⟩

end CMS
